import Mathlib

/-!
Verification of the image-sizer-galaxy resize and mosaic engine.

The definitions below are a shallow embedding of the TypeScript sources:

* `src/src/utils/imageProcessor.ts` — `convertImage` (letterbox geometry and
  rendering), `createMosaicPieces` (cover-fit composite, 3x3 tile slicing,
  per-piece label stamping, per-piece blob collection) and
  `downloadBlobsAsZip` (archive entry naming).
* `src/src/components/ConversionCard.tsx` (the `Index` page component) —
  the batch state (`images`, `isProcessing`, `mosaicMode`), `processImages`
  and `handleMosaicModeChange`.

JavaScript number arithmetic on pixel geometry is modelled exactly over the
rationals; `Math.round` is floor of the value plus one half (round half
toward positive infinity).  Canvas pixels are triples of rational channel
values; `drawImage`, `fillRect` with a half-transparent black fill, and
white text painting with an abstract antialias coverage function are
modelled as functions on those pixels.  Asynchronous `canvas.toBlob`
callbacks fire in issue order (row-major over the nine pieces), so the
piece collection is modelled as a left-to-right fold that rejects at the
first failed encode, exactly as the promise in the source settles.
-/

namespace ImageSizerGalaxy

/-! ### Letterbox geometry: `convertImage`, imageProcessor.ts lines 18-46 -/

/-- JavaScript `Math.round`: round half toward positive infinity. -/
def jsRound (q : ℚ) : ℤ := ⌊q + 1 / 2⌋

/-- `const isHorizontal = img.width > img.height` (line 20). -/
def isHorizontal (w h : ℕ) : Bool := decide (h < w)

/-- The sizes and offsets `convertImage` computes before drawing. -/
structure ConvertGeometry where
  targetWidth : ℤ
  targetHeight : ℤ
  canvasWidth : ℤ
  canvasHeight : ℤ
  x : ℚ
  y : ℚ
deriving DecidableEq

/-- Lines 20-43 of imageProcessor.ts: target dimensions from the orientation
test, the canvas dimensions, and the centering offsets. -/
def convertGeometry (w h : ℕ) (horizontalWidth verticalHeight : ℤ) : ConvertGeometry :=
  let targetWidth : ℤ :=
    if isHorizontal w h then horizontalWidth
    else jsRound (((horizontalWidth : ℚ) * (w : ℚ)) / (h : ℚ))
  let targetHeight : ℤ :=
    if isHorizontal w h then jsRound (((verticalHeight : ℚ) * (h : ℚ)) / (w : ℚ))
    else verticalHeight
  let canvasWidth : ℤ := if isHorizontal w h then horizontalWidth else targetWidth
  let canvasHeight : ℤ := if isHorizontal w h then targetHeight else verticalHeight
  { targetWidth := targetWidth
    targetHeight := targetHeight
    canvasWidth := canvasWidth
    canvasHeight := canvasHeight
    x := (((canvasWidth : ℚ) - (targetWidth : ℚ))) / 2
    y := (((canvasHeight : ℚ) - (targetHeight : ℚ))) / 2 }

/-- The landscape branch of `convertGeometry` taken on its own: width pinned
to the horizontal constant, height derived from the aspect ratio. -/
def landscapeGeometry (w h : ℕ) (horizontalWidth verticalHeight : ℤ) : ConvertGeometry :=
  let targetWidth : ℤ := horizontalWidth
  let targetHeight : ℤ := jsRound (((verticalHeight : ℚ) * (h : ℚ)) / (w : ℚ))
  { targetWidth := targetWidth
    targetHeight := targetHeight
    canvasWidth := horizontalWidth
    canvasHeight := targetHeight
    x := (((horizontalWidth : ℚ) - (targetWidth : ℚ))) / 2
    y := (((targetHeight : ℚ) - (targetHeight : ℚ))) / 2 }

/-! ### Pixels -/

/-- One canvas pixel, channel values exact rationals (the canvas is opaque
throughout: every composite starts from an opaque white fill). -/
structure RGB where
  r : ℚ
  g : ℚ
  b : ℚ
deriving DecidableEq

/-- `#FFFFFF`, the background fill. -/
def white : RGB := ⟨255, 255, 255⟩

/-- Painting `rgba(0, 0, 0, 0.5)` source-over an opaque pixel: each channel
is halved. -/
def halfBlack (p : RGB) : RGB := ⟨p.r / 2, p.g / 2, p.b / 2⟩

/-- Painting white text with antialias coverage `a` over an opaque pixel. -/
def blendWhite (a : ℚ) (p : RGB) : RGB :=
  ⟨a * 255 + (1 - a) * p.r, a * 255 + (1 - a) * p.g, a * 255 + (1 - a) * p.b⟩

/-- `ctx.fillRect(10, 10, 40, 30)` of the piece label (line 153): the pixels
the half-black label box covers. -/
def inLabelRect (u v : ℕ) : Prop := 10 ≤ u ∧ u < 50 ∧ 10 ≤ v ∧ v < 40

instance (u v : ℕ) : Decidable (inLabelRect u v) := by
  unfold inLabelRect; infer_instance

/-- How `convertImage` renders its canvas (lines 37-46): white fill, then
the source drawn at `(x, y)` scaled to `targetWidth x targetHeight`;
`sample` is the scaled source image positioned at the draw origin. -/
def convertCanvasPixel (sample : ℤ → ℤ → RGB) (w h : ℕ)
    (horizontalWidth verticalHeight : ℤ) (px py : ℤ) : RGB :=
  let g := convertGeometry w h horizontalWidth verticalHeight
  if g.x ≤ (px : ℚ) ∧ (px : ℚ) < g.x + (g.targetWidth : ℚ) ∧
     g.y ≤ (py : ℚ) ∧ (py : ℚ) < g.y + (g.targetHeight : ℚ)
  then sample px py else white

/-! ### Mosaic cover geometry: `createMosaicPieces`, imageProcessor.ts lines 84-98 -/

/-- The numbers `createMosaicPieces` computes before rendering the
composite. -/
structure MosaicGeometry where
  totalWidth : ℚ
  totalHeight : ℚ
  scale : ℚ
  scaledWidth : ℚ
  scaledHeight : ℚ
  x : ℚ
  y : ℚ
deriving DecidableEq

/-- Lines 84-98: composite canvas `pieceWidth*3 x pieceHeight*3`, cover
scale, scaled dimensions and centering offsets. -/
def mosaicGeometry (w h pieceWidth pieceHeight : ℚ) : MosaicGeometry :=
  let totalWidth := pieceWidth * 3
  let totalHeight := pieceHeight * 3
  let scaleWidth := totalWidth / w
  let scaleHeight := totalHeight / h
  let scale := max scaleWidth scaleHeight
  let scaledWidth := w * scale
  let scaledHeight := h * scale
  { totalWidth := totalWidth
    totalHeight := totalHeight
    scale := scale
    scaledWidth := scaledWidth
    scaledHeight := scaledHeight
    x := (totalWidth - scaledWidth) / 2
    y := (totalHeight - scaledHeight) / 2 }

/-! ### Mosaic tile pixels: imageProcessor.ts lines 123-158

A piece canvas is filled white, receives the sub-rectangle
`[col*pieceWidth, row*pieceHeight, pieceWidth, pieceHeight]` of the
composite, and is then stamped with the piece-number label: a half-black
`fillRect(10, 10, 40, 30)` and white bold text drawn at `(30, 25)`.  The
text rasterisation is abstracted by its antialias coverage `textAlpha`. -/

/-- Pixel `(u, v)` of piece `(row, col)` as the source renders it. -/
def tilePixel (composite : ℕ → ℕ → RGB) (pieceWidth pieceHeight : ℕ)
    (textAlpha : ℕ → ℕ → ℚ) (row col u v : ℕ) : RGB :=
  let cropped :=
    if u < pieceWidth ∧ v < pieceHeight then
      composite (col * pieceWidth + u) (row * pieceHeight + v)
    else white
  let labeled := if inLabelRect u v then halfBlack cropped else cropped
  blendWhite (textAlpha u v) labeled

/-- The pixel the reassembled 3x3 grid of pieces shows at composite
coordinate `(x, y)`: tile `(y / pieceHeight, x / pieceWidth)` at
within-tile position `(x % pieceWidth, y % pieceHeight)`. -/
def reassembledPixel (composite : ℕ → ℕ → RGB) (pieceWidth pieceHeight : ℕ)
    (textAlpha : ℕ → ℕ → ℚ) (x y : ℕ) : RGB :=
  tilePixel composite pieceWidth pieceHeight textAlpha
    (y / pieceHeight) (x / pieceWidth) (x % pieceWidth) (y % pieceHeight)

/-! ### Mosaic piece collection: imageProcessor.ts lines 119-177 -/

/-- An encoded output buffer: opaque bytes abstracted away, media type
kept (`canvas.toBlob` tags the blob with the requested type). -/
structure Blob where
  type : String
deriving DecidableEq

/-- The row-major traversal `for row in [0,3) for col in [0,3)`. -/
def pieceGrid : List (ℕ × ℕ) :=
  ((List.range 3).map (fun row => (List.range 3).map (fun col => (row, col)))).flatten

/-- The `toBlob` callback chain of lines 161-175: callbacks fire in issue
order; a successful encode pushes its blob and a failed encode rejects the
whole promise with a fixed message, so the fold stops at the first piece
whose encode yields no blob. -/
def collectPieces (encode : ℕ → ℕ → Option Blob) :
    List (ℕ × ℕ) → List Blob → Except String (List Blob)
  | [], acc => .ok acc
  | (row, col) :: rest, acc =>
    match encode row col with
    | some blob => collectPieces encode rest (acc ++ [blob])
    | none => .error "Failed to convert piece to blob"

/-- `createMosaicPieces`, reduced to how the returned promise settles as a
function of which piece encodes succeed. -/
def createMosaicPiecesRun (encode : ℕ → ℕ → Option Blob) : Except String (List Blob) :=
  collectPieces encode pieceGrid []

/-! ### Archive packaging: `downloadBlobsAsZip`, imageProcessor.ts lines 266-312 -/

/-- JavaScript `String.prototype.split` with a one-character separator, at
character level (an empty string splits to one empty piece, like in JS). -/
def jsSplitAux (sep : Char) : List Char → List Char → List (List Char)
  | [], acc => [acc.reverse]
  | c :: rest, acc =>
    if c = sep then acc.reverse :: jsSplitAux sep rest []
    else jsSplitAux sep rest (c :: acc)

/-- `text.split(sep)` over the characters of `text`. -/
def jsSplit (sep : Char) (text : List Char) : List (List Char) := jsSplitAux sep text []

/-- `blob.type.split('/')[1] || 'jpg'` (line 282): the media-type subtype,
falling back to `jpg` when the split has no second piece or it is empty. -/
def extensionOf (t : String) : String :=
  match (jsSplit '/' t.toList).drop 1 with
  | [] => "jpg"
  | s :: _ => if s = [] then "jpg" else String.mk s

/-- Line 283: the archive entry name of the buffer at 0-based position `i`. -/
def entryName (baseFilename : String) (i : ℕ) (blob : Blob) : String :=
  baseFilename ++ "_parte_" ++ toString (i + 1) ++ "." ++ extensionOf blob.type

/-- Lines 280-286: each blob added under its entry name, in order. -/
def zipEntries (baseFilename : String) : List Blob → ℕ → List String
  | [], _ => []
  | blob :: rest, i => entryName baseFilename i blob :: zipEntries baseFilename rest (i + 1)

/-- The archive as the caller observes it: entry names and zip filename. -/
structure ZipPackage where
  entryNames : List String
  zipFilename : String
deriving DecidableEq

/-- `downloadBlobsAsZip` (lines 266-312): rejects an empty buffer list with
a fixed message, otherwise packages every buffer under its derived entry
name into `baseFilename_mosaico.zip`. -/
def downloadBlobsAsZip (blobs : List Blob) (baseFilename : String) :
    Except String ZipPackage :=
  if blobs.length = 0 then .error "No blobs to download"
  else .ok { entryNames := zipEntries baseFilename blobs 0
             zipFilename := baseFilename ++ "_mosaico.zip" }

/-! ### Batch orchestrator: ConversionCard.tsx (Index component) lines 111-212, 370-383 -/

/-- `type ImageStatus = 'idle' | 'processing' | 'completed' | 'error'`. -/
inductive ImageStatus where
  | idle
  | processing
  | completed
  | error
deriving DecidableEq

/-- One `ImageItem` of the queue (line 113): the file is identified by its
name; decoded thumbnails and object URLs are UI plumbing and omitted. -/
structure ImageItem where
  file : String
  status : ImageStatus
  convertedBlob : Option Blob := none
  mosaicPieces : List Blob := []
deriving DecidableEq

/-- The page state the orchestrator owns: the queue, the in-flight guard
and the mosaic mode flag. -/
structure AppState where
  images : List ImageItem
  isProcessing : Bool
  mosaicMode : Bool
deriving DecidableEq

/-- `current.map((img, idx) => idx === index ? f(img) : img)`: the
functional update at one index used by every `setImages` call. -/
def updateAt : List ImageItem → ℕ → (ImageItem → ImageItem) → List ImageItem
  | [], _, _ => []
  | it :: rest, 0, f => f it :: rest
  | it :: rest, n + 1, f => it :: updateAt rest n f

/-- The `{ ...img, status: 'processing' }` update (lines 167-171). -/
def setProcessing (it : ImageItem) : ImageItem := { it with status := .processing }

/-- Lines 173-208: what one item becomes after its try/catch block runs,
as a function of the outcome of `createMosaicPieces` (`cm`) or
`convertImage` (`cv`) on its file. -/
def processOutcome (mosaicMode : Bool) (cm : String → Except String (List Blob))
    (cv : String → Except String Blob) (it : ImageItem) : ImageItem :=
  if mosaicMode then
    match cm it.file with
    | .ok pieces => { it with status := .completed, mosaicPieces := pieces }
    | .error _ => { it with status := .error }
  else
    match cv it.file with
    | .ok blob => { it with status := .completed, convertedBlob := some blob }
    | .error _ => { it with status := .error }

/-- The per-item effect of one whole `processImages` run: idle items get
their outcome, items in any other status are left untouched. -/
def finishItem (mosaicMode : Bool) (cm : String → Except String (List Blob))
    (cv : String → Except String Blob) (it : ImageItem) : ImageItem :=
  if it.status = .idle then processOutcome mosaicMode cm cv it else it

/-- The positions of `pendingImages = imagesToProcess.filter(idle)` inside
the queue (the source finds each pending item by object identity; items
are distinct objects, so identity is position). -/
def idleIndices (items : List ImageItem) : List ℕ :=
  (List.range items.length).filter (fun i => (items[i]?.map ImageItem.status) = some .idle)

/-- The `for` loop of lines 162-209: each pending index is set to
processing and then to its outcome, in arrival order. -/
def runLoop (outcome : ImageItem → ImageItem) :
    List ImageItem → List ℕ → List ImageItem
  | cur, [] => cur
  | cur, i :: rest =>
    runLoop outcome (updateAt (updateAt cur i setProcessing) i outcome) rest

/-- Every intermediate queue the loop makes observable through `setImages`:
for each pending index, the state right after it is marked processing and
the state right after its outcome lands. -/
def loopStates (outcome : ImageItem → ImageItem) :
    List ImageItem → List ℕ → List (List ImageItem)
  | _, [] => []
  | cur, i :: rest =>
    let proc := updateAt cur i setProcessing
    let done := updateAt proc i outcome
    proc :: done :: loopStates outcome done rest

/-- `processImages` (lines 154-212): a no-op while a run is in flight or
when nothing is pending; otherwise the guard is raised, the loop runs over
the pending items in order, and the guard is dropped. -/
def processImages (cm : String → Except String (List Blob))
    (cv : String → Except String Blob) (s : AppState) : AppState :=
  if s.isProcessing then s
  else if (s.images.filter (fun it => it.status = .idle)).length = 0 then s
  else
    { s with
      images := runLoop (processOutcome s.mosaicMode cm cv) s.images (idleIndices s.images)
      isProcessing := false }

/-- The queue states a `processImages` call publishes while it runs. -/
def processTrace (cm : String → Except String (List Blob))
    (cv : String → Except String Blob) (s : AppState) : List (List ImageItem) :=
  if s.isProcessing then []
  else loopStates (processOutcome s.mosaicMode cm cv) s.images (idleIndices s.images)

/-- `handleMosaicModeChange` (lines 370-383): rejected (second component
true) whenever the queue is non-empty, otherwise the mode is set. -/
def handleMosaicModeChange (enabled : Bool) (s : AppState) : AppState × Bool :=
  if 0 < s.images.length then (s, true)
  else ({ s with mosaicMode := enabled }, false)

/-- How many queue items are mid-flight. -/
def countProcessing (items : List ImageItem) : ℕ :=
  (items.filter (fun it => it.status = .processing)).length

/-! ### Concrete inputs used by counterexamples and witnesses -/

/-- An all-red composite canvas. -/
def redComposite : ℕ → ℕ → RGB := fun _ _ => ⟨255, 0, 0⟩

/-- An all-white composite canvas. -/
def whiteComposite : ℕ → ℕ → RGB := fun _ _ => white

/-- An all-white scaled source sample on integer coordinates. -/
def whiteSample : ℤ → ℤ → RGB := fun _ _ => white

/-- Text coverage of a glyph that misses the pixel under scrutiny. -/
def zeroAlpha : ℕ → ℕ → ℚ := fun _ _ => 0

/-- A JPEG-typed buffer, as `canvas.toBlob(cb, 'image/jpeg', 0.95)` yields. -/
def jpegBlob : Blob := ⟨"image/jpeg"⟩

/-- Every piece encodes. -/
def encodeAll : ℕ → ℕ → Option Blob := fun _ _ => some jpegBlob

/-- Exactly the piece at `(rowFail, colFail)` fails to encode. -/
def encodeFailAt (rowFail colFail : ℕ) : ℕ → ℕ → Option Blob :=
  fun row col => if row = rowFail ∧ col = colFail then none else some jpegBlob

/-- A mosaic-mode processor built from a per-file piece encoder. -/
def mosaicProcessor (encode : String → ℕ → ℕ → Option Blob) :
    String → Except String (List Blob) :=
  fun f => createMosaicPiecesRun (encode f)

/-- A freshly enqueued item. -/
def idleItem (name : String) : ImageItem := { file := name, status := .idle }

/-- A single-item mosaic-mode queue, not processing. -/
def sampleMosaicState : AppState :=
  { images := [idleItem "A"], isProcessing := false, mosaicMode := true }

/-- A three-item single-mode queue, not processing. -/
def sampleSingleState : AppState :=
  { images := [idleItem "A", idleItem "B", idleItem "C"], isProcessing := false, mosaicMode := false }

/-- A queue caught while a run is in flight. -/
def busyState : AppState :=
  { images := [idleItem "A"], isProcessing := true, mosaicMode := false }

/-- Decoding fails exactly on file `B`. -/
def cvFailB : String → Except String Blob :=
  fun f => if f = "B" then .error "Failed to load image" else .ok jpegBlob

/-- Single-image conversion always succeeds. -/
def cvOk : String → Except String Blob := fun _ => .ok jpegBlob

/-- Mosaic conversion always succeeds. -/
def cmOk : String → Except String (List Blob) := mosaicProcessor (fun _ => encodeAll)

/-- A default item for indexed access in closed statements. -/
def defaultItem : ImageItem := { file := "", status := .idle }

/-! ### Helper lemmas -/

theorem jsRound_intCast (z : ℤ) : jsRound (z : ℚ) = z := by
  unfold jsRound
  rw [Int.floor_int_add]
  norm_num

theorem isHorizontal_eq_true {w h : ℕ} (hlt : h < w) : isHorizontal w h = true := by
  simp [isHorizontal, hlt]

theorem isHorizontal_eq_false {w h : ℕ} (hle : w ≤ h) : isHorizontal w h = false := by
  simp [isHorizontal, decide_eq_false_iff_not]
  omega

theorem convertGeometry_canvas_eq_target (w h : ℕ) (horizontalWidth verticalHeight : ℤ) :
    (convertGeometry w h horizontalWidth verticalHeight).canvasWidth =
      (convertGeometry w h horizontalWidth verticalHeight).targetWidth ∧
    (convertGeometry w h horizontalWidth verticalHeight).canvasHeight =
      (convertGeometry w h horizontalWidth verticalHeight).targetHeight := by
  unfold convertGeometry
  cases hb : isHorizontal w h <;> simp [hb]

theorem blendWhite_zero (p : RGB) : blendWhite 0 p = p := by
  cases p
  simp [blendWhite]

theorem pieceGrid_eq :
    pieceGrid = [(0, 0), (0, 1), (0, 2), (1, 0), (1, 1), (1, 2), (2, 0), (2, 1), (2, 2)] := by
  decide

theorem mem_pieceGrid (p : ℕ × ℕ) : p ∈ pieceGrid ↔ p.1 < 3 ∧ p.2 < 3 := by
  obtain ⟨row, col⟩ := p
  rw [pieceGrid_eq]
  simp [Prod.ext_iff]
  omega

theorem collectPieces_ok_length (encode : ℕ → ℕ → Option Blob) (l : List (ℕ × ℕ))
    (acc ps : List Blob) (h : collectPieces encode l acc = .ok ps) :
    ps.length = acc.length + l.length := by
  induction l generalizing acc with
  | nil =>
    simp only [collectPieces, Except.ok.injEq] at h
    simp [← h]
  | cons p rest ih =>
    obtain ⟨row, col⟩ := p
    unfold collectPieces at h
    cases he : encode row col with
    | some blob =>
      rw [he] at h
      have := ih (acc ++ [blob]) h
      simp at this
      simp [this]
      omega
    | none =>
      rw [he] at h
      simp at h

theorem collectPieces_all_some (encode : ℕ → ℕ → Option Blob) (l : List (ℕ × ℕ))
    (acc : List Blob) (hall : ∀ p ∈ l, (encode p.1 p.2).isSome) :
    ∃ ps, collectPieces encode l acc = .ok ps := by
  induction l generalizing acc with
  | nil => exact ⟨acc, rfl⟩
  | cons p rest ih =>
    obtain ⟨row, col⟩ := p
    have hhead : (encode row col).isSome := hall (row, col) (List.mem_cons_self _ _)
    obtain ⟨blob, hb⟩ := Option.isSome_iff_exists.mp hhead
    have htail : ∀ q ∈ rest, (encode q.1 q.2).isSome :=
      fun q hq => hall q (List.mem_cons_of_mem _ hq)
    obtain ⟨ps, hps⟩ := ih (acc ++ [blob]) htail
    refine ⟨ps, ?_⟩
    unfold collectPieces
    rw [hb]
    exact hps

theorem collectPieces_some_none (encode : ℕ → ℕ → Option Blob) (l : List (ℕ × ℕ))
    (acc : List Blob) (hex : ∃ p ∈ l, encode p.1 p.2 = none) :
    collectPieces encode l acc = .error "Failed to convert piece to blob" := by
  induction l generalizing acc with
  | nil => simp at hex
  | cons p rest ih =>
    obtain ⟨row, col⟩ := p
    unfold collectPieces
    cases he : encode row col with
    | some blob =>
      obtain ⟨q, hq, hqnone⟩ := hex
      rcases List.mem_cons.mp hq with hqh | hqt
      · subst hqh
        simp [he] at hqnone
      · exact ih (acc ++ [blob]) ⟨q, hqt, hqnone⟩
    | none => rfl

theorem zipEntries_length (baseFilename : String) (blobs : List Blob) (k : ℕ) :
    (zipEntries baseFilename blobs k).length = blobs.length := by
  induction blobs generalizing k with
  | nil => rfl
  | cons b rest ih => simp [zipEntries, ih]

theorem zipEntries_getElem? (baseFilename : String) (blobs : List Blob) (k i : ℕ) :
    (zipEntries baseFilename blobs k)[i]? =
      (blobs[i]?).map (fun blob => entryName baseFilename (k + i) blob) := by
  induction blobs generalizing k i with
  | nil => simp [zipEntries]
  | cons b rest ih =>
    cases i with
    | zero => simp [zipEntries]
    | succ n =>
      simp only [zipEntries, List.getElem?_cons_succ, ih (k + 1) n]
      have : k + 1 + n = k + (n + 1) := by omega
      rw [this]

theorem updateAt_getElem? (l : List ImageItem) (i : ℕ) (f : ImageItem → ImageItem) (j : ℕ) :
    (updateAt l i f)[j]? = if i = j then (l[j]?).map f else l[j]? := by
  induction l generalizing i j with
  | nil => simp [updateAt]
  | cons hd tl ih =>
    cases i with
    | zero =>
      cases j with
      | zero => simp [updateAt]
      | succ m => simp [updateAt]
    | succ n =>
      cases j with
      | zero => simp [updateAt]
      | succ m =>
        simp only [updateAt, List.getElem?_cons_succ, ih n m]
        by_cases h : n = m <;> simp [h]

theorem processOutcome_status_irrelevant (mosaicMode : Bool)
    (cm : String → Except String (List Blob)) (cv : String → Except String Blob)
    (it : ImageItem) (st : ImageStatus) :
    processOutcome mosaicMode cm cv { it with status := st } =
      processOutcome mosaicMode cm cv it := by
  unfold processOutcome
  cases mosaicMode with
  | false => cases cv it.file <;> simp
  | true => cases cm it.file <;> simp

theorem runLoop_getElem? (outcome : ImageItem → ImageItem) (cur : List ImageItem)
    (idxs : List ℕ) (hnd : idxs.Nodup) (j : ℕ) :
    (runLoop outcome cur idxs)[j]? =
      if j ∈ idxs then (cur[j]?).map (fun it => outcome (setProcessing it))
      else cur[j]? := by
  induction idxs generalizing cur with
  | nil => simp [runLoop]
  | cons i rest ih =>
    obtain ⟨hi, hrest⟩ := List.nodup_cons.mp hnd
    rw [runLoop, ih _ hrest]
    by_cases hjr : j ∈ rest
    · have hij : ¬ i = j := fun h => hi (h ▸ hjr)
      simp [hjr, updateAt_getElem?, hij, List.mem_cons]
    · by_cases hij : j = i
      · subst hij
        simp only [hjr, updateAt_getElem?, Option.map_map, List.mem_cons, if_true, if_pos rfl,
          true_or, if_false, eq_self_iff_true]
        rfl
      · have hij' : ¬ i = j := fun h => hij h.symm
        simp [hjr, updateAt_getElem?, hij', List.mem_cons, hij]

theorem mem_idleIndices (items : List ImageItem) (j : ℕ) :
    j ∈ idleIndices items ↔ ∃ it, items[j]? = some it ∧ it.status = .idle := by
  unfold idleIndices
  rw [List.mem_filter, List.mem_range]
  constructor
  · rintro ⟨hlt, hst⟩
    have hst' : items[j]?.map ImageItem.status = some ImageStatus.idle := by
      simpa using hst
    obtain ⟨it, hit, hs⟩ := Option.map_eq_some'.mp hst'
    exact ⟨it, hit, hs⟩
  · rintro ⟨it, hit, hs⟩
    have hlt : j < items.length := by
      by_contra hge
      rw [List.getElem?_eq_none (by omega)] at hit
      exact Option.noConfusion hit
    refine ⟨hlt, ?_⟩
    simp [hit, hs]

theorem idleIndices_nodup (items : List ImageItem) : (idleIndices items).Nodup :=
  (List.nodup_range items.length).filter _

theorem idleIndices_sorted (items : List ImageItem) :
    List.Pairwise (· < ·) (idleIndices items) :=
  (List.pairwise_lt_range items.length).sublist (List.filter_sublist _)

theorem filter_idle_empty_iff (items : List ImageItem) :
    (items.filter (fun it => it.status = .idle)).length = 0 ↔
      ∀ it ∈ items, ¬ it.status = .idle := by
  rw [List.length_eq_zero, List.filter_eq_nil_iff]
  simp

theorem finishItem_of_not_idle (mosaicMode : Bool)
    (cm : String → Except String (List Blob)) (cv : String → Except String Blob)
    (it : ImageItem) (h : ¬ it.status = .idle) :
    finishItem mosaicMode cm cv it = it := by
  simp [finishItem, h]

/-- The loop of `processImages` leaves the queue equal to the pointwise
finish of every item: idle items get their outcome, others are untouched. -/
theorem processImages_images_eq_map (cm : String → Except String (List Blob))
    (cv : String → Except String Blob) (s : AppState) (hp : s.isProcessing = false) :
    (processImages cm cv s).images =
      s.images.map (finishItem s.mosaicMode cm cv) := by
  unfold processImages
  rw [hp]
  simp only [Bool.false_eq_true, if_false]
  by_cases hpend : (s.images.filter (fun it => it.status = .idle)).length = 0
  · rw [if_pos hpend]
    have hall : ∀ it ∈ s.images, ¬ it.status = .idle :=
      (filter_idle_empty_iff s.images).mp hpend
    have : s.images.map (finishItem s.mosaicMode cm cv) = s.images.map id :=
      List.map_congr_left fun it hit => finishItem_of_not_idle _ _ _ it (hall it hit)
    rw [this, List.map_id]
  · rw [if_neg hpend]
    apply List.ext_getElem?
    intro j
    rw [runLoop_getElem? _ _ _ (idleIndices_nodup s.images) j, List.getElem?_map]
    by_cases hj : j ∈ idleIndices s.images
    · obtain ⟨it, hit, hs⟩ := (mem_idleIndices s.images j).mp hj
      rw [if_pos hj, hit]
      simp only [Option.map_some']
      congr 1
      rw [setProcessing, processOutcome_status_irrelevant]
      simp [finishItem, hs]
    · rw [if_neg hj]
      cases hit : s.images[j]? with
      | none => simp
      | some it =>
        have hnotidle : ¬ it.status = .idle := by
          intro hs
          exact hj ((mem_idleIndices s.images j).mpr ⟨it, hit, hs⟩)
        simp [finishItem_of_not_idle _ _ _ it hnotidle]

theorem countProcessing_cons (it : ImageItem) (rest : List ImageItem) :
    countProcessing (it :: rest) =
      (if it.status = .processing then 1 else 0) + countProcessing rest := by
  unfold countProcessing
  by_cases h : it.status = .processing
  · simp [List.filter_cons, h]
    omega
  · simp [List.filter_cons, h]

theorem countProcessing_updateAt_le_one (l : List ImageItem) (i : ℕ)
    (f : ImageItem → ImageItem) (h : countProcessing l = 0) :
    countProcessing (updateAt l i f) ≤ 1 := by
  induction l generalizing i with
  | nil => simp [updateAt, countProcessing]
  | cons hd tl ih =>
    rw [countProcessing_cons] at h
    have hhd : ¬ hd.status = .processing := by
      by_cases hh : hd.status = .processing <;> simp [hh] at h ⊢
    have htl : countProcessing tl = 0 := by omega
    cases i with
    | zero =>
      rw [updateAt, countProcessing_cons, htl]
      by_cases hf : (f hd).status = .processing <;> simp [hf]
    | succ n =>
      rw [updateAt, countProcessing_cons]
      have := ih n htl
      simp [hhd]
      omega

theorem countProcessing_double_update (l : List ImageItem) (i : ℕ)
    (outcome : ImageItem → ImageItem)
    (hout : ∀ it, ¬ (outcome it).status = .processing)
    (h : countProcessing l = 0) :
    countProcessing (updateAt (updateAt l i setProcessing) i outcome) = 0 := by
  induction l generalizing i with
  | nil => simp [updateAt, countProcessing]
  | cons hd tl ih =>
    rw [countProcessing_cons] at h
    have hhd : ¬ hd.status = .processing := by
      by_cases hh : hd.status = .processing <;> simp [hh] at h ⊢
    have htl : countProcessing tl = 0 := by omega
    cases i with
    | zero =>
      rw [updateAt, updateAt, countProcessing_cons, htl]
      simp [hout (setProcessing hd)]
    | succ n =>
      rw [updateAt, updateAt, countProcessing_cons]
      rw [ih n htl]
      simp [hhd]

theorem processOutcome_not_processing (mosaicMode : Bool)
    (cm : String → Except String (List Blob)) (cv : String → Except String Blob)
    (it : ImageItem) :
    ¬ (processOutcome mosaicMode cm cv it).status = .processing := by
  unfold processOutcome
  cases mosaicMode with
  | false => cases cv it.file <;> simp
  | true => cases cm it.file <;> simp

/-- Every intermediate queue state the loop publishes holds at most one
mid-flight item, provided none was mid-flight at entry. -/
theorem loopStates_at_most_one (outcome : ImageItem → ImageItem)
    (hout : ∀ it, ¬ (outcome it).status = .processing) (idxs : List ℕ)
    (cur : List ImageItem) (h0 : countProcessing cur = 0) :
    ∀ l ∈ loopStates outcome cur idxs, countProcessing l ≤ 1 := by
  induction idxs generalizing cur with
  | nil => simp [loopStates]
  | cons i rest ih =>
    intro l hl
    rw [loopStates] at hl
    have hdone : countProcessing (updateAt (updateAt cur i setProcessing) i outcome) = 0 :=
      countProcessing_double_update cur i outcome hout h0
    rcases List.mem_cons.mp hl with hproc | hl'
    · rw [hproc]
      exact countProcessing_updateAt_le_one cur i setProcessing h0
    · rcases List.mem_cons.mp hl' with hd | htail
      · rw [hd]; omega
      · exact ih _ hdone l htail

/-! ### Claim theorems -/

/-- C2: mosaic cover-fit resolves against the fixed composite canvas
`pieceWidth*3 x pieceHeight*3` with scale `max(pieceWidth*3/w, pieceHeight*3/h)`,
scaled dimensions `w*scale x h*scale`, and centering offsets
`((pieceWidth*3 - scaledWidth)/2, (pieceHeight*3 - scaledHeight)/2)`,
which are zero or negative for positive inputs. -/
theorem c2_mosaic_cover_fit (w h pieceWidth pieceHeight : ℚ)
    (hw : 0 < w) (hh : 0 < h) (_hpw : 0 < pieceWidth) (_hph : 0 < pieceHeight) :
    (mosaicGeometry w h pieceWidth pieceHeight).totalWidth = pieceWidth * 3 ∧
    (mosaicGeometry w h pieceWidth pieceHeight).totalHeight = pieceHeight * 3 ∧
    (mosaicGeometry w h pieceWidth pieceHeight).scale =
      max (pieceWidth * 3 / w) (pieceHeight * 3 / h) ∧
    (mosaicGeometry w h pieceWidth pieceHeight).scaledWidth =
      w * (mosaicGeometry w h pieceWidth pieceHeight).scale ∧
    (mosaicGeometry w h pieceWidth pieceHeight).scaledHeight =
      h * (mosaicGeometry w h pieceWidth pieceHeight).scale ∧
    (mosaicGeometry w h pieceWidth pieceHeight).x =
      (pieceWidth * 3 - (mosaicGeometry w h pieceWidth pieceHeight).scaledWidth) / 2 ∧
    (mosaicGeometry w h pieceWidth pieceHeight).y =
      (pieceHeight * 3 - (mosaicGeometry w h pieceWidth pieceHeight).scaledHeight) / 2 ∧
    (mosaicGeometry w h pieceWidth pieceHeight).x ≤ 0 ∧
    (mosaicGeometry w h pieceWidth pieceHeight).y ≤ 0 := by
  have hw' : (w : ℚ) ≠ 0 := ne_of_gt hw
  have hh' : (h : ℚ) ≠ 0 := ne_of_gt hh
  have hxw : pieceWidth * 3 ≤ w * max (pieceWidth * 3 / w) (pieceHeight * 3 / h) := by
    calc pieceWidth * 3 = pieceWidth * 3 / w * w := (div_mul_cancel₀ _ hw').symm
    _ = w * (pieceWidth * 3 / w) := by ring
    _ ≤ w * max (pieceWidth * 3 / w) (pieceHeight * 3 / h) :=
        mul_le_mul_of_nonneg_left (le_max_left _ _) hw.le
  have hyh : pieceHeight * 3 ≤ h * max (pieceWidth * 3 / w) (pieceHeight * 3 / h) := by
    calc pieceHeight * 3 = pieceHeight * 3 / h * h := (div_mul_cancel₀ _ hh').symm
    _ = h * (pieceHeight * 3 / h) := by ring
    _ ≤ h * max (pieceWidth * 3 / w) (pieceHeight * 3 / h) :=
        mul_le_mul_of_nonneg_left (le_max_right _ _) hh.le
  refine ⟨rfl, rfl, rfl, rfl, rfl, rfl, rfl, ?_, ?_⟩
  · show (pieceWidth * 3 - w * max (pieceWidth * 3 / w) (pieceHeight * 3 / h)) / 2 ≤ 0
    linarith
  · show (pieceHeight * 3 - h * max (pieceWidth * 3 / w) (pieceHeight * 3 / h)) / 2 ≤ 0
    linarith

/-- C2 witness: the 1000x1000 source with 2050x2994 pieces gives composite
6150x8982, scale 8.982, scaled image 8982x8982 and offsets (-1416, 0). -/
theorem c2_mosaic_cover_fit_witness :
    (mosaicGeometry 1000 1000 2050 2994).totalWidth = 6150 ∧
    (mosaicGeometry 1000 1000 2050 2994).totalHeight = 8982 ∧
    (mosaicGeometry 1000 1000 2050 2994).scale = 4491 / 500 ∧
    (mosaicGeometry 1000 1000 2050 2994).scaledWidth = 8982 ∧
    (mosaicGeometry 1000 1000 2050 2994).scaledHeight = 8982 ∧
    (mosaicGeometry 1000 1000 2050 2994).x = -1416 ∧
    (mosaicGeometry 1000 1000 2050 2994).y = 0 ∧
    (mosaicGeometry 1000 1000 2050 2994).x ≤ 0 := by
  have h := c2_mosaic_cover_fit 1000 1000 2050 2994
    (by norm_num) (by norm_num) (by norm_num) (by norm_num)
  refine ⟨?_, ?_, ?_, ?_, ?_, ?_, ?_, h.2.2.2.2.2.2.2.1⟩ <;>
    simp [mosaicGeometry, max_def] <;> norm_num

/-- C3: letterbox resolution pins the canvas width to the horizontal
constant and derives the height as `round(verticalConstant * h / w)` for a
landscape source, and symmetrically pins the height to the vertical
constant and derives the width as `round(horizontalConstant * w / h)` for a
portrait source. -/
theorem c3_letterbox_canvas (w h : ℕ) (horizontalWidth verticalHeight : ℤ) :
    (h < w →
      (convertGeometry w h horizontalWidth verticalHeight).canvasWidth = horizontalWidth ∧
      (convertGeometry w h horizontalWidth verticalHeight).canvasHeight =
        jsRound (((verticalHeight : ℚ) * (h : ℚ)) / (w : ℚ))) ∧
    (w < h →
      (convertGeometry w h horizontalWidth verticalHeight).canvasHeight = verticalHeight ∧
      (convertGeometry w h horizontalWidth verticalHeight).canvasWidth =
        jsRound (((horizontalWidth : ℚ) * (w : ℚ)) / (h : ℚ))) := by
  constructor
  · intro hlt
    unfold convertGeometry
    simp [isHorizontal_eq_true hlt]
  · intro hlt
    unfold convertGeometry
    simp [isHorizontal_eq_false hlt.le]

/-- C3 witness: a 4000x3000 landscape source with the default constants
yields a 2050x2246 canvas (round(2994*3000/4000) = 2246). -/
theorem c3_letterbox_canvas_witness :
    (convertGeometry 4000 3000 2050 2994).canvasWidth = 2050 ∧
    (convertGeometry 4000 3000 2050 2994).canvasHeight = 2246 := by
  have h := (c3_letterbox_canvas 4000 3000 2050 2994).1 (by norm_num)
  refine ⟨h.1, ?_⟩
  rw [h.2]
  norm_num [jsRound]

/-- C4 counterexample: a square source does not take the horizontalWidth
(landscape) branch; the orientation test `img.width > img.height` is
strict, so a 100x100 source is classified as not horizontal. -/
theorem c4_square_branch_counterexample : isHorizontal 100 100 = false := rfl

/-- C4 amended: a square source takes the portrait (verticalHeight) branch,
but the resulting geometry coincides with what the landscape branch would
produce: canvas width still equals the horizontal constant and canvas
height equals the vertical constant, so squares are output-equivalent to
landscape sources. -/
theorem c4_square_portrait_branch_same_output (w : ℕ) (horizontalWidth verticalHeight : ℤ)
    (hw : 0 < w) :
    isHorizontal w w = false ∧
    convertGeometry w w horizontalWidth verticalHeight =
      landscapeGeometry w w horizontalWidth verticalHeight ∧
    (convertGeometry w w horizontalWidth verticalHeight).canvasWidth = horizontalWidth ∧
    (convertGeometry w w horizontalWidth verticalHeight).canvasHeight = verticalHeight := by
  have hb : isHorizontal w w = false := isHorizontal_eq_false le_rfl
  have hw' : (w : ℚ) ≠ 0 := by
    simpa using Nat.pos_iff_ne_zero.mp hw
  have hdivW : ((horizontalWidth : ℚ) * (w : ℚ)) / (w : ℚ) = (horizontalWidth : ℚ) := by
    field_simp
  have hdivH : ((verticalHeight : ℚ) * (w : ℚ)) / (w : ℚ) = (verticalHeight : ℚ) := by
    field_simp
  refine ⟨hb, ?_, ?_, ?_⟩
  · unfold convertGeometry landscapeGeometry
    simp [hb, hdivW, hdivH, jsRound_intCast]
  · unfold convertGeometry
    simp [hb, hdivW, jsRound_intCast]
  · unfold convertGeometry
    simp [hb]

/-- C4 witness: at a 100x100 source with the default constants the portrait
branch is taken and the canvas is 2050x2994 all the same. -/
theorem c4_square_portrait_branch_witness :
    isHorizontal 100 100 = false ∧
    (convertGeometry 100 100 2050 2994).canvasWidth = 2050 ∧
    (convertGeometry 100 100 2050 2994).canvasHeight = 2994 := by
  have h := c4_square_portrait_branch_same_output 100 2050 2994 (by norm_num)
  exact ⟨h.1, h.2.2.1, h.2.2.2⟩

/-- C6: while any item is queued, a mode change is rejected and the state,
mode included, is unchanged; the mode can only differ after the call when
the queue was empty. -/
theorem c6_mode_locked_while_queue_nonempty (s : AppState) (enabled : Bool) :
    (0 < s.images.length → handleMosaicModeChange enabled s = (s, true)) ∧
    ((handleMosaicModeChange enabled s).1.mosaicMode ≠ s.mosaicMode → s.images = []) := by
  unfold handleMosaicModeChange
  by_cases hl : 0 < s.images.length
  · simp [hl]
  · have : s.images = [] := by
      simpa using List.length_eq_zero.mp (by omega)
    simp [hl, this]

/-- C6 witness: with one queued item the mode flip is rejected and the
state is returned untouched. -/
theorem c6_mode_locked_witness :
    handleMosaicModeChange true sampleSingleState = (sampleSingleState, true) :=
  (c6_mode_locked_while_queue_nonempty sampleSingleState true).1 (by decide)

/-- C10: in letterbox mode the canvas dimensions always equal the scaled
image dimensions, the centering offsets are exactly (0, 0) for every
input, and the drawn image covers every canvas pixel, so the background
fill is never visible. -/
theorem c10_letterbox_full_bleed (sample : ℤ → ℤ → RGB) (w h : ℕ)
    (horizontalWidth verticalHeight : ℤ) :
    (convertGeometry w h horizontalWidth verticalHeight).x = 0 ∧
    (convertGeometry w h horizontalWidth verticalHeight).y = 0 ∧
    (convertGeometry w h horizontalWidth verticalHeight).canvasWidth =
      (convertGeometry w h horizontalWidth verticalHeight).targetWidth ∧
    (convertGeometry w h horizontalWidth verticalHeight).canvasHeight =
      (convertGeometry w h horizontalWidth verticalHeight).targetHeight ∧
    (∀ px py : ℤ, 0 ≤ px →
      px < (convertGeometry w h horizontalWidth verticalHeight).canvasWidth →
      0 ≤ py →
      py < (convertGeometry w h horizontalWidth verticalHeight).canvasHeight →
      convertCanvasPixel sample w h horizontalWidth verticalHeight px py = sample px py) := by
  obtain ⟨hcw, hch⟩ := convertGeometry_canvas_eq_target w h horizontalWidth verticalHeight
  have hx : (convertGeometry w h horizontalWidth verticalHeight).x = 0 := by
    unfold convertGeometry at hcw ⊢
    cases hb : isHorizontal w h <;> simp [hb]
  have hy : (convertGeometry w h horizontalWidth verticalHeight).y = 0 := by
    unfold convertGeometry at hch ⊢
    cases hb : isHorizontal w h <;> simp [hb]
  refine ⟨hx, hy, hcw, hch, ?_⟩
  intro px py hpx0 hpxW hpy0 hpyH
  unfold convertCanvasPixel
  rw [if_pos]
  refine ⟨?_, ?_, ?_, ?_⟩
  · rw [hx]; exact_mod_cast hpx0
  · rw [hx, zero_add]
    rw [hcw] at hpxW
    exact_mod_cast hpxW
  · rw [hy]; exact_mod_cast hpy0
  · rw [hy, zero_add]
    rw [hch] at hpyH
    exact_mod_cast hpyH

/-- C1 counterexample: the source stamps a piece-number label on every
tile (half-black `fillRect(10, 10, 40, 30)` plus white text), so
reassembly is not pixel-exact: over an all-red composite, composite pixel
(12, 12) is pure red but the reassembled grid shows the half-black-blended
value there (tile (0,0), within-tile position (12, 12), inside the label
box, shown with text coverage 0 at that pixel). -/
theorem c1_label_breaks_pixel_exact_counterexample :
    reassembledPixel redComposite 2050 2994 zeroAlpha 12 12 = ⟨255 / 2, 0, 0⟩ ∧
    redComposite 12 12 = ⟨255, 0, 0⟩ ∧
    reassembledPixel redComposite 2050 2994 zeroAlpha 12 12 ≠ redComposite 12 12 := by
  have hval : reassembledPixel redComposite 2050 2994 zeroAlpha 12 12 = ⟨255 / 2, 0, 0⟩ := by
    norm_num [reassembledPixel, tilePixel, redComposite, zeroAlpha, halfBlack,
      blendWhite, inLabelRect]
  refine ⟨hval, rfl, ?_⟩
  rw [hval]
  simp only [redComposite, ne_eq, RGB.mk.injEq]
  norm_num

/-- C1 amended: a WorkItem completed in mosaic mode always carries exactly
9 output tiles, and reassembling the 9 tiles edge-to-edge in row-major
order (tile `row = y div pieceH`, `col = x div pieceW`, position
`(x mod pieceW, y mod pieceH)`) reproduces the composite canvas
pixel-exactly at every pixel outside the piece-number label stamp — the
half-black box over within-tile positions `x in [10,50), y in [10,40)`
and the white label text; at label-stamped positions the tiles differ
from the composite. -/
theorem c1_completed_mosaic_nine_and_reassembly (encode : String → ℕ → ℕ → Option Blob)
    (cv : String → Except String Blob) (s : AppState)
    (hmode : s.mosaicMode = true)
    (hinv : ∀ it ∈ s.images, it.status = .completed → it.mosaicPieces.length = 9) :
    (∀ it ∈ (processImages (mosaicProcessor encode) cv s).images,
      it.status = .completed → it.mosaicPieces.length = 9) ∧
    (∀ (composite : ℕ → ℕ → RGB) (pieceWidth pieceHeight : ℕ)
      (textAlpha : ℕ → ℕ → ℚ) (x y : ℕ),
      0 < pieceWidth → 0 < pieceHeight →
      x < 3 * pieceWidth → y < 3 * pieceHeight →
      ¬ inLabelRect (x % pieceWidth) (y % pieceHeight) →
      textAlpha (x % pieceWidth) (y % pieceHeight) = 0 →
      reassembledPixel composite pieceWidth pieceHeight textAlpha x y = composite x y) := by
  constructor
  · cases hp : s.isProcessing with
    | true =>
      intro it hit
      unfold processImages at hit
      rw [hp] at hit
      simp only [if_true] at hit
      exact hinv it hit
    | false =>
      rw [processImages_images_eq_map _ _ s hp]
      intro it hit hcomp
      obtain ⟨it0, hit0, rfl⟩ := List.mem_map.mp hit
      by_cases hidle : it0.status = .idle
      · rw [finishItem, if_pos hidle] at hcomp ⊢
        rw [processOutcome, hmode, if_pos rfl] at hcomp ⊢
        cases hcm : mosaicProcessor encode it0.file with
        | ok ps =>
          have h9 : ps.length = 9 := by
            have := collectPieces_ok_length (encode it0.file) pieceGrid [] ps hcm
            simpa [pieceGrid_eq] using this
          simp [h9]
        | error e =>
          rw [hcm] at hcomp
          simp at hcomp
      · rw [finishItem, if_neg hidle] at hcomp ⊢
        exact hinv it0 hit0 hcomp
  · intro composite pieceWidth pieceHeight textAlpha x y hpW hpH hx3 hy3 hlab halpha
    have hu : x % pieceWidth < pieceWidth := Nat.mod_lt _ hpW
    have hv : y % pieceHeight < pieceHeight := Nat.mod_lt _ hpH
    simp only [reassembledPixel, tilePixel]
    rw [if_neg hlab, if_pos ⟨hu, hv⟩, halpha, blendWhite_zero,
      Nat.div_add_mod' x pieceWidth, Nat.div_add_mod' y pieceHeight]

/-- C1 witness: processing a one-item mosaic queue with every piece
encoding leaves the completed item holding 9 tiles, and a pixel outside
the label stamp, here (100, 100), reassembles exactly. -/
theorem c1_completed_mosaic_witness :
    ((processImages (mosaicProcessor (fun _ => encodeAll)) cvOk sampleMosaicState).images.map
      (fun it => it.mosaicPieces.length)) = [9] ∧
    reassembledPixel whiteComposite 2050 2994 zeroAlpha 100 100 = whiteComposite 100 100 := by
  have h := c1_completed_mosaic_nine_and_reassembly (fun _ => encodeAll) cvOk
    sampleMosaicState rfl (by decide)
  exact ⟨rfl, h.2 whiteComposite 2050 2994 zeroAlpha 100 100 (by norm_num) (by norm_num)
    (by norm_num) (by norm_num) (by decide) rfl⟩

/-- C5 counterexample: the rejection carried by a failed piece encode is
the same fixed message whatever piece failed — failing piece (0,2) and
failing piece (2,1) are indistinguishable to the caller, so the error does
not identify the failed index. -/
theorem c5_error_has_no_index_counterexample :
    createMosaicPiecesRun (encodeFailAt 0 2) = .error "Failed to convert piece to blob" ∧
    createMosaicPiecesRun (encodeFailAt 2 1) = .error "Failed to convert piece to blob" ∧
    createMosaicPiecesRun (encodeFailAt 0 2) = createMosaicPiecesRun (encodeFailAt 2 1) :=
  ⟨rfl, rfl, rfl⟩

/-- C5 amended: the mosaic tiling succeeds if and only if all 9 tiles
encode without error; on any single failed encode the whole operation
fails with the fixed message `Failed to convert piece to blob` (which does
not name the failed index), and a success always carries exactly 9 tiles —
no partial result is ever returned. -/
theorem c5_mosaic_all_or_nothing (encode : ℕ → ℕ → Option Blob) :
    ((∃ ps, createMosaicPiecesRun encode = .ok ps) ↔
      ∀ row < 3, ∀ col < 3, (encode row col).isSome) ∧
    (∀ ps, createMosaicPiecesRun encode = .ok ps → ps.length = 9) ∧
    ((∃ row < 3, ∃ col < 3, encode row col = none) →
      createMosaicPiecesRun encode = .error "Failed to convert piece to blob") := by
  refine ⟨⟨?_, ?_⟩, ?_, ?_⟩
  · rintro ⟨ps, hps⟩ row hrow col hcol
    by_contra hnone
    have hn : encode row col = none := Option.not_isSome_iff_eq_none.mp hnone
    have herr := collectPieces_some_none encode pieceGrid []
      ⟨(row, col), (mem_pieceGrid _).mpr ⟨hrow, hcol⟩, hn⟩
    rw [createMosaicPiecesRun, herr] at hps
    exact Except.noConfusion hps
  · intro hall
    refine collectPieces_all_some encode pieceGrid [] ?_
    intro p hp
    obtain ⟨h1, h2⟩ := (mem_pieceGrid p).mp hp
    exact hall p.1 h1 p.2 h2
  · intro ps hps
    have := collectPieces_ok_length encode pieceGrid [] ps hps
    simpa [pieceGrid_eq] using this
  · rintro ⟨row, hrow, col, hcol, hnone⟩
    exact collectPieces_some_none encode pieceGrid []
      ⟨(row, col), (mem_pieceGrid _).mpr ⟨hrow, hcol⟩, hnone⟩

/-- C5 witness: with every piece encoding, the run returns exactly the 9
tiles; with piece (1,1) failing, it returns the fixed error. -/
theorem c5_mosaic_all_or_nothing_witness :
    createMosaicPiecesRun encodeAll = .ok (List.replicate 9 jpegBlob) ∧
    (List.replicate 9 jpegBlob).length = 9 ∧
    createMosaicPiecesRun (encodeFailAt 1 1) = .error "Failed to convert piece to blob" :=
  ⟨rfl, (c5_mosaic_all_or_nothing encodeAll).2.1 (List.replicate 9 jpegBlob) rfl,
    (c5_mosaic_all_or_nothing (encodeFailAt 1 1)).2.2
      ⟨1, by norm_num, 1, by norm_num, rfl⟩⟩

/-- C8 counterexample: nine JPEG-typed tiles with base name `photo` get
entries `photo_parte_1.jpeg` through `photo_parte_9.jpeg` — the extension
is the media-type subtype `jpeg`, not the `jpg` the claim names. -/
theorem c8_jpeg_extension_counterexample :
    zipEntries "photo" (List.replicate 9 jpegBlob) 0 =
      ["photo_parte_1.jpeg", "photo_parte_2.jpeg", "photo_parte_3.jpeg",
       "photo_parte_4.jpeg", "photo_parte_5.jpeg", "photo_parte_6.jpeg",
       "photo_parte_7.jpeg", "photo_parte_8.jpeg", "photo_parte_9.jpeg"] ∧
    entryName "photo" 0 jpegBlob = "photo_parte_1.jpeg" ∧
    entryName "photo" 0 jpegBlob ≠ "photo_parte_1.jpg" :=
  ⟨rfl, rfl, by decide⟩

/-- C8 amended: packaging an empty buffer sequence fails with the fixed
empty-archive error; otherwise entry `i` (0-based) is named
`{base}_parte_{i+1}.{ext}` with `ext` the media-type subtype (fallback
`jpg` when absent), inside `{base}_mosaico.zip`; for nine JPEG-typed tiles
with base name `photo` the entries are `photo_parte_1.jpeg` through
`photo_parte_9.jpeg`. -/
theorem c8_zip_packaging (blobs : List Blob) (baseFilename : String) :
    (blobs.length = 0 →
      downloadBlobsAsZip blobs baseFilename = .error "No blobs to download") ∧
    (0 < blobs.length →
      ∃ pkg, downloadBlobsAsZip blobs baseFilename = .ok pkg ∧
        pkg.zipFilename = baseFilename ++ "_mosaico.zip" ∧
        pkg.entryNames.length = blobs.length ∧
        ∀ i : ℕ, pkg.entryNames[i]? =
          (blobs[i]?).map (fun blob => entryName baseFilename i blob)) ∧
    extensionOf "image/jpeg" = "jpeg" ∧
    extensionOf "" = "jpg" := by
  refine ⟨?_, ?_, rfl, rfl⟩
  · intro hlen
    simp [downloadBlobsAsZip, hlen]
  · intro hlen
    refine ⟨{ entryNames := zipEntries baseFilename blobs 0
              zipFilename := baseFilename ++ "_mosaico.zip" }, ?_, rfl, ?_, ?_⟩
    · simp [downloadBlobsAsZip, Nat.pos_iff_ne_zero.mp hlen]
    · exact zipEntries_length baseFilename blobs 0
    · intro i
      simpa using zipEntries_getElem? baseFilename blobs 0 i

/-- C8 witness: the empty list is rejected; nine JPEG tiles under base
name `photo` package into `photo_mosaico.zip` with the nine `.jpeg`
entries. -/
theorem c8_zip_packaging_witness :
    downloadBlobsAsZip [] "photo" = .error "No blobs to download" ∧
    downloadBlobsAsZip (List.replicate 9 jpegBlob) "photo" =
      .ok ⟨["photo_parte_1.jpeg", "photo_parte_2.jpeg", "photo_parte_3.jpeg",
            "photo_parte_4.jpeg", "photo_parte_5.jpeg", "photo_parte_6.jpeg",
            "photo_parte_7.jpeg", "photo_parte_8.jpeg", "photo_parte_9.jpeg"],
           "photo_mosaico.zip"⟩ :=
  ⟨(c8_zip_packaging [] "photo").1 rfl, rfl⟩

/-- C7: one `processImages` run maps every queue item in place — an idle
item to its own outcome, every other item untouched — so items are handled
in arrival order (the pending indices are strictly increasing), an error
on one item marks only that item, and the queue is never reordered or
shortened. -/
theorem c7_batch_serial_isolated (cm : String → Except String (List Blob))
    (cv : String → Except String Blob) (s : AppState) (hp : s.isProcessing = false) :
    (processImages cm cv s).images = s.images.map (finishItem s.mosaicMode cm cv) ∧
    (processImages cm cv s).images.length = s.images.length ∧
    List.Pairwise (· < ·) (idleIndices s.images) := by
  have h := processImages_images_eq_map cm cv s hp
  refine ⟨h, ?_, idleIndices_sorted s.images⟩
  rw [h, List.length_map]

/-- C7 witness: enqueue A, B, C; B fails to decode; the final statuses are
`[completed, error, completed]` in the original order. -/
theorem c7_batch_serial_isolated_witness :
    ((processImages cmOk cvFailB sampleSingleState).images.map ImageItem.status) =
      [.completed, .error, .completed] := by
  have h := c7_batch_serial_isolated cmOk cvFailB sampleSingleState rfl
  rw [h.1]
  decide

/-- C9: a `processImages` invocation while a run is already in flight is a
no-op (the state is returned unchanged), and when a run does start on a
queue with no mid-flight item, every intermediate queue state it publishes
has at most one item with status processing. -/
theorem c9_at_most_one_inflight (cm : String → Except String (List Blob))
    (cv : String → Except String Blob) (s : AppState) :
    (s.isProcessing = true → processImages cm cv s = s) ∧
    (countProcessing s.images = 0 →
      ∀ l ∈ processTrace cm cv s, countProcessing l ≤ 1) := by
  constructor
  · intro hp
    unfold processImages
    rw [hp]
    simp
  · intro h0 l hl
    unfold processTrace at hl
    cases hp : s.isProcessing with
    | true => rw [hp] at hl; simp at hl
    | false =>
      rw [hp] at hl
      simp only [Bool.false_eq_true, if_false] at hl
      exact loopStates_at_most_one _
        (processOutcome_not_processing s.mosaicMode cm cv) _ _ h0 l hl

/-- C9 witness: a call on an in-flight state returns it unchanged, and the
first published state of a fresh three-item run has one mid-flight item. -/
theorem c9_at_most_one_inflight_witness :
    processImages cmOk cvOk busyState = busyState ∧
    countProcessing ((processTrace cmOk cvOk sampleSingleState).getD 0 []) ≤ 1 := by
  refine ⟨(c9_at_most_one_inflight cmOk cvOk busyState).1 rfl, ?_⟩
  exact (c9_at_most_one_inflight cmOk cvOk sampleSingleState).2 (by decide) _ (by decide)

/-- C10 witness: at a 4000x3000 source every canvas pixel, here (0, 0) and
(2049, 2245), shows the drawn image, and the offsets are (0, 0). -/
theorem c10_letterbox_full_bleed_witness :
    (convertGeometry 4000 3000 2050 2994).x = 0 ∧
    (convertGeometry 4000 3000 2050 2994).y = 0 ∧
    convertCanvasPixel whiteSample 4000 3000 2050 2994 0 0 = whiteSample 0 0 ∧
    convertCanvasPixel whiteSample 4000 3000 2050 2994 2049 2245 = whiteSample 2049 2245 := by
  have h := c10_letterbox_full_bleed whiteSample 4000 3000 2050 2994
  have hcw : (convertGeometry 4000 3000 2050 2994).canvasWidth = 2050 := by
    unfold convertGeometry
    simp [isHorizontal_eq_true (by norm_num : (3000 : ℕ) < 4000)]
  have hch : (convertGeometry 4000 3000 2050 2994).canvasHeight = 2246 := by
    unfold convertGeometry
    simp [isHorizontal_eq_true (by norm_num : (3000 : ℕ) < 4000)]
    norm_num [jsRound]
  refine ⟨h.1, h.2.1, ?_, ?_⟩
  · exact h.2.2.2.2 0 0 le_rfl (by rw [hcw]; norm_num) le_rfl (by rw [hch]; norm_num)
  · exact h.2.2.2.2 2049 2245 (by norm_num) (by rw [hcw]; norm_num)
      (by norm_num) (by rw [hch]; norm_num)

end ImageSizerGalaxy
